import Mathlib

/-!
Verification of the THI (Triangulated Hallucination Index) pipeline.

Shallow embedding of `thi_pipeline.py`, `thi_server.py` and the
`components/` package (speculative.py, sanity.py, paraphrase.py).
Python floats are modelled as exact rationals; sentences are lists of
characters; the external NLP capabilities (NLI classifier, sentence
embeddings, spaCy tokenisation/tagging, the claim extractor's regex
output and the natural-language date parser) are parameters of the
pipeline, as the specification treats them (interfaces only).
-/

namespace THI

/-! ### Character and text helpers

Python string operations (`str.lower`, `in`, `str.replace`,
`str.startswith`, `float(...)`) modelled over `List Char`.  `lower` is
modelled on ASCII letters, the only case the pipeline's keyword tables
exercise. -/

/-- ASCII lower-casing of one character (models Python `str.lower` per char). -/
def charToLower (c : Char) : Char :=
  if 'A' ≤ c ∧ c ≤ 'Z' then Char.ofNat (c.toNat + 32) else c

/-- ASCII upper-casing of one character (models Python `str.upper` per char). -/
def charToUpper (c : Char) : Char :=
  if 'a' ≤ c ∧ c ≤ 'z' then Char.ofNat (c.toNat - 32) else c

/-- Lower-case a text (Python `text.lower()`). -/
def toLowerList (cs : List Char) : List Char := cs.map charToLower

/-- Boolean prefix test. -/
def isPrefixList : List Char → List Char → Bool
  | [], _ => true
  | _ :: _, [] => false
  | a :: as, b :: bs => a == b && isPrefixList as bs

/-- Boolean substring test (Python `needle in hay`). -/
def isSubstrList (needle : List Char) : List Char → Bool
  | [] => isPrefixList needle []
  | hay@(_ :: rest) => isPrefixList needle hay || isSubstrList needle rest

/-- Index of the first occurrence of `pat` (leftmost match), if any. -/
def findSubstrIdx? (pat : List Char) : List Char → Option ℕ
  | [] => if isPrefixList pat [] then some 0 else none
  | s@(_ :: rest) =>
    if isPrefixList pat s then some 0 else (findSubstrIdx? pat rest).map (· + 1)

/-- Python `s.replace(pat, repl, 1)`: replace the first occurrence only. -/
def replaceFirst (pat repl : List Char) : List Char → List Char
  | [] => if isPrefixList pat [] then repl else []
  | s@(c :: rest) =>
    if isPrefixList pat s then repl ++ s.drop pat.length
    else c :: replaceFirst pat repl rest

/-- Fuelled worker for `replaceAll`; the fuel is the length of the text, which
bounds the number of steps since every step consumes at least one character. -/
def replaceAllAux (pat repl : List Char) : ℕ → List Char → List Char
  | 0, s => s
  | _ + 1, [] => []
  | fuel + 1, s@(c :: rest) =>
    if !pat.isEmpty && isPrefixList pat s then
      repl ++ replaceAllAux pat repl fuel (s.drop pat.length)
    else c :: replaceAllAux pat repl fuel rest

/-- Python `s.replace(pat, repl)`: replace every occurrence, scanning left to
right (the pipeline only ever calls it with a non-empty pattern). -/
def replaceAll (pat repl s : List Char) : List Char :=
  replaceAllAux pat repl s.length s

/-- Strip leading and trailing spaces (Python `float` ignores surrounding
whitespace; the extracted mention texts contain at most spaces). -/
def trimList (cs : List Char) : List Char :=
  ((cs.dropWhile (· == ' ')).reverse.dropWhile (· == ' ')).reverse

/-- Numeric value of a digit string. -/
def digitsVal (cs : List Char) : ℕ :=
  cs.foldl (fun a c => a * 10 + (c.toNat - 48)) 0

/-- Magnitude part of a Python float literal: digits with an optional
decimal point. -/
def pyFloatMag? (body : List Char) : Option ℚ :=
  let intPart := body.takeWhile Char.isDigit
  let rest := body.dropWhile Char.isDigit
  match rest with
  | [] => if intPart.isEmpty then none else some (digitsVal intPart)
  | '.' :: frac =>
    if frac.all Char.isDigit && !(intPart.isEmpty && frac.isEmpty) then
      some ((digitsVal intPart : ℚ) + (digitsVal frac : ℚ) / 10 ^ frac.length)
    else none
  | _ => none

/-- Model of Python `float(s)` on the sign/digits/decimal-point forms the
extraction regexes can produce; any other shape raises `ValueError` in
Python and is `none` here. -/
def pyFloat? (s : List Char) : Option ℚ :=
  match trimList s with
  | '-' :: rest => (pyFloatMag? rest).map (fun q => -q)
  | '+' :: rest => pyFloatMag? rest
  | cs => pyFloatMag? cs

/-! ### Data model -/

/-- A located mention produced by `ClaimExtractor` (`parser.py`); the sanity
checker only reads the matched text, so spans and entity labels are not
carried. -/
structure Mention where
  text : List Char
deriving DecidableEq

/-- The per-sentence mention families of `extract_sentence_claims`. -/
structure Claims where
  entities : List Mention
  numbers : List Mention
  percents : List Mention
  money : List Mention
  dates : List Mention
deriving DecidableEq

/-- The `sentence_data` record as built by `ClaimExtractor.extract_sentence_claims`. -/
structure SentenceData where
  text : List Char
  claims : Claims
deriving DecidableEq

/-- A sanity-check flag; the Python code renders these as f-strings
(`percent_jump_500.0` and so on), which is display formatting of the carried
value. -/
inductive Flag where
  | percent_jump (value : ℚ)
  | currency_mismatch_usd_inr_context
  | currency_mismatch_inr_usd_context
  | absurd_height (value : ℚ)
  | absurd_weight (value : ℚ)
  | absurd_temperature (value : ℚ)
  | future_date_past_context (year : ℤ)
deriving DecidableEq

/-- The `percent_jump` rule entry of `rules.yaml` (`sanity.rules.percent_jump`). -/
structure PercentJumpRule where
  enabled : Bool
  threshold : ℚ
deriving DecidableEq

/-- Rule toggles of `rules.yaml` (`sanity.rules`). -/
structure SanityRules where
  percent_jump : PercentJumpRule
  currency_mismatch_enabled : Bool
  unit_absurdity_enabled : Bool
  future_past_conflict_enabled : Bool
deriving DecidableEq

/-- The `sanity.thresholds` section of `rules.yaml`. -/
structure SanityThresholds where
  human_height_cm : ℚ
  human_weight_kg : ℚ
  temperature_celsius : ℚ
deriving DecidableEq

/-- One spaCy token as `SpeculativeScorer.score_sentence` consumes it:
lemma, punctuation flag, whitespace flag. -/
structure Token where
  lemma_ : List Char
  is_punct : Bool
  is_space : Bool
deriving DecidableEq

/-- One spaCy token as the hedge-insertion paraphrase consumes it:
surface text, coarse part-of-speech tag and dependency label. -/
structure SpacyToken where
  text : List Char
  pos : List Char
  dep : List Char
deriving DecidableEq

/-- Configuration of `SpeculativeScorer` (`speculative` section of
`rules.yaml`): hedge and absolute lexicons and their weights. -/
structure SpecConfig where
  hedges : List (List Char)
  absolutes : List (List Char)
  weight_hedge : ℚ
  weight_absolute : ℚ
deriving DecidableEq

/-- The hedge/absolute/token counts returned by `score_sentence`. -/
structure SpecCounts where
  hedges : ℕ
  absolutes : ℕ
  tokens : ℕ
deriving DecidableEq

/-- One synonym-table entry (`paraphrase.synonyms` of `rules.yaml`); the
first synonym is the canonical deterministic substitution, so it is kept
apart from the rest and is always present. -/
structure SynonymEntry where
  word : List Char
  first : List Char
  rest : List (List Char)
deriving DecidableEq

/-- One label/probability pair returned by the NLI capability. -/
structure LabelScore where
  label : List Char
  score : ℚ
deriving DecidableEq

/-- The external capabilities the pipeline consumes, as the specification
scopes them: NLI label probabilities, embedding cosine similarity, spaCy
tokenisation and tagging, the claim extractor's output and the lenient
date parser (returning the parsed year). -/
structure Capabilities where
  nli : List Char → List Char → List LabelScore
  embedSim : List Char → List Char → ℚ
  tokenize : List Char → List Token
  tag : List Char → List SpacyToken
  extract : List Char → List SentenceData
  dateParse : List Char → Option ℤ
  currentYear : ℤ

/-- The state of a `THIPipeline` instance: the active weight vector plus the
loaded configuration and the plugged-in capabilities. -/
structure Pipeline where
  weights : List ℚ
  caps : Capabilities
  specCfg : SpecConfig
  sanityRules : SanityRules
  sanityThresholds : SanityThresholds
  synonyms : List SynonymEntry
  hedges : List (List Char)

/-! ### SpeculativeScorer (`components/speculative.py`) -/

/-- Model of `SpeculativeScorer.score_sentence`: lower-case and tokenise the text
(delegated to the tokenizer capability), drop punctuation/whitespace tokens
and keep lemmas, count hedge and absolute lemmas, and normalise the weighted
sum by `0.02 * tokenCount`, clamped to `1.0`. -/
def score_sentence (cfg : SpecConfig) (tokenize : List Char → List Token)
    (text : List Char) : ℚ × SpecCounts :=
  let doc := tokenize (toLowerList text)
  let tokens := (doc.filter (fun t => !t.is_punct && !t.is_space)).map (·.lemma_)
  if tokens.isEmpty then (0, ⟨0, 0, 0⟩)
  else
    let hedge_count := tokens.countP (fun t => cfg.hedges.contains t)
    let absolute_count := tokens.countP (fun t => cfg.absolutes.contains t)
    let weighted_sum :=
      (hedge_count : ℚ) * cfg.weight_hedge + (absolute_count : ℚ) * cfg.weight_absolute
    (min (weighted_sum / (2 / 100 * (tokens.length : ℚ))) 1,
      ⟨hedge_count, absolute_count, tokens.length⟩)

/-! ### SanityChecker (`components/sanity.py`) -/

/-- The daily-context cue of `_check_percent_jumps`: an explicit daily phrase
in the lower-cased sentence, or any date mention whose text contains "day". -/
def is_daily_context (text : List Char) (dates : List Mention) : Bool :=
  (["in one day".toList, "in a single day".toList, "daily".toList]).any
      (fun k => isSubstrList k (toLowerList text)) ||
    dates.any (fun d => isSubstrList "day".toList (toLowerList d.text))

/-- Loop body of `_check_percent_jumps`: strip `%` signs, parse, and flag the
mention when its absolute value exceeds the threshold (non-parseable mention
texts are skipped silently, as the `except ValueError: continue` does). -/
def percent_flag? (threshold : ℚ) (p : Mention) : Option Flag :=
  match pyFloat? (replaceAll "%".toList [] p.text) with
  | some v => if threshold < |v| then some (Flag.percent_jump |v|) else none
  | none => none

/-- Model of `SanityChecker._check_percent_jumps`: when the rule is enabled, there is at
least one percent mention and the sentence has a daily-context cue, flag every
percent mention via `percent_flag?`. -/
def check_percent_jumps (rule : PercentJumpRule) (percents dates : List Mention)
    (text : List Char) : List Flag :=
  if !rule.enabled || percents.isEmpty then []
  else if is_daily_context text dates then
    percents.filterMap (percent_flag? rule.threshold)
  else []

/-- Model of `SanityChecker._check_currency_mismatch`. -/
def check_currency_mismatch (enabled : Bool) (money : List Mention)
    (text : List Char) : List Flag :=
  if !enabled then []
  else
    let tl := toLowerList text
    let inr_context := (["rupee".toList, "inr".toList, "indian".toList]).any
      (fun w => isSubstrList w tl)
    let usd_context := (["dollar".toList, "usd".toList, "american".toList]).any
      (fun w => isSubstrList w tl)
    money.filterMap (fun m =>
      if isSubstrList "$".toList m.text && inr_context then
        some Flag.currency_mismatch_usd_inr_context
      else if isSubstrList "₹".toList m.text && usd_context then
        some Flag.currency_mismatch_inr_usd_context
      else none)

/-- Model of `SanityChecker._check_unit_absurdity`: keyword-gated per unit family;
numeric mentions above the family threshold (absolute value for temperature)
are flagged. -/
def check_unit_absurdity (enabled : Bool) (th : SanityThresholds)
    (numbers : List Mention) (text : List Char) : List Flag :=
  if !enabled then []
  else
    let tl := toLowerList text
    let heightFlags :=
      if (["height".toList, "tall".toList, "cm".toList, "centimeter".toList]).any
          (fun w => isSubstrList w tl) then
        numbers.filterMap (fun n =>
          match pyFloat? n.text with
          | some v => if th.human_height_cm < v then some (Flag.absurd_height v) else none
          | none => none)
      else []
    let weightFlags :=
      if (["weight".toList, "kg".toList, "kilogram".toList]).any
          (fun w => isSubstrList w tl) then
        numbers.filterMap (fun n =>
          match pyFloat? n.text with
          | some v => if th.human_weight_kg < v then some (Flag.absurd_weight v) else none
          | none => none)
      else []
    let tempFlags :=
      if (["temperature".toList, "celsius".toList, "°c".toList]).any
          (fun w => isSubstrList w tl) then
        numbers.filterMap (fun n =>
          match pyFloat? n.text with
          | some v => if th.temperature_celsius < |v| then some (Flag.absurd_temperature v) else none
          | none => none)
      else []
    heightFlags ++ weightFlags ++ tempFlags

/-- Model of `SanityChecker._check_temporal_conflicts`: under a past-context cue, flag
every date mention whose parsed year (delegated date parser) exceeds the
current calendar year. -/
def check_temporal_conflicts (enabled : Bool) (dateParse : List Char → Option ℤ)
    (current_year : ℤ) (dates : List Mention) (text : List Char) : List Flag :=
  if !enabled then []
  else
    let tl := toLowerList text
    if (["yesterday".toList, "last week".toList, "last month".toList,
        "last year".toList, "previous".toList, "past".toList]).any
        (fun w => isSubstrList w tl) then
      dates.filterMap (fun d =>
        match dateParse d.text with
        | some y => if current_year < y then some (Flag.future_date_past_context y) else none
        | none => none)
    else []

/-- Model of `SanityChecker.check_sentence_claims`: zero numeric-ish mentions
short-circuit to `(0.0, [])`; otherwise the four rules run in order and the
score is `min(flagCount / max(1, numericMentionCount), 1.0)`. -/
def check_sentence_claims (rules : SanityRules) (th : SanityThresholds)
    (dateParse : List Char → Option ℤ) (current_year : ℤ)
    (sd : SentenceData) : ℚ × List Flag :=
  let claims := sd.claims
  let numeric_claims :=
    claims.percents.length + claims.money.length + claims.numbers.length +
      claims.dates.length
  if numeric_claims = 0 then (0, [])
  else
    let flags :=
      check_percent_jumps rules.percent_jump claims.percents claims.dates sd.text ++
      check_currency_mismatch rules.currency_mismatch_enabled claims.money sd.text ++
      check_unit_absurdity rules.unit_absurdity_enabled th claims.numbers sd.text ++
      check_temporal_conflicts rules.future_past_conflict_enabled dateParse
        current_year claims.dates sd.text
    (min ((flags.length : ℚ) / max 1 (numeric_claims : ℚ)) 1, flags)

/-! ### ParaphraseGenerator (`components/paraphrase.py`) -/

/-- First character upper-cased (Python `result[0].upper() + result[1:]`). -/
def capitalizeFirst : List Char → List Char
  | [] => []
  | c :: rest => charToUpper c :: rest

/-- The fixed literal string repairs `_synonym_paraphrase` applies after
substitution. -/
def fix_inflections (s : List Char) : List Char :=
  let s := replaceAll "announceed".toList "announced".toList s
  let s := replaceAll "rised".toList "rose".toList s
  let s := replaceAll "growed".toList "grew".toList s
  let s := replaceAll "falled".toList "fell".toList s
  let s := replaceAll "dropped".toList "dropped".toList s
  let s := replaceAll "declined".toList "declined".toList s
  s

/-- Model of `ParaphraseGenerator._synonym_paraphrase`: lower-case, replace every
occurrence of each synonym-table key with its first synonym (in table order),
re-capitalise the first letter and repair known malformed inflections. -/
def synonym_paraphrase (synonyms : List SynonymEntry) (text : List Char) : List Char :=
  let result := toLowerList text
  let result := synonyms.foldl
    (fun r e => if isSubstrList e.word r then replaceAll e.word e.first r else r) result
  match result with
  | [] => []
  | c :: rest => fix_inflections (capitalizeFirst (c :: rest))

/-- First token tagged as a verb whose dependency label is not "aux". -/
def find_main_verb (doc : List SpacyToken) : Option SpacyToken :=
  doc.find? (fun t => t.pos == "VERB".toList && t.dep != "aux".toList)

/-- Model of `ParaphraseGenerator._insert_hedge_paraphrase`: with a non-empty hedge
list, replace the first occurrence of the main verb's text with
"possibly " followed by it, unless the sentence already contains "possibly";
in every other case prepend "Possibly ". -/
def insert_hedge_paraphrase (hedges : List (List Char)) (doc : List SpacyToken)
    (text : List Char) : List Char :=
  if hedges.isEmpty then text
  else
    match find_main_verb doc with
    | some v =>
      if !isSubstrList "possibly".toList (toLowerList text) then
        replaceFirst v.text ("possibly ".toList ++ v.text) text
      else "Possibly ".toList ++ text
    | none => "Possibly ".toList ++ text

/-- The fixed time-expression list of `_minor_shuffle_paraphrase`. -/
def time_indicators : List (List Char) :=
  ["yesterday".toList, "today".toList, "tomorrow".toList, "last week".toList,
    "next month".toList, "in 2024".toList]

/-- The time-indicator loop of `_minor_shuffle_paraphrase`: the first indicator
contained in the sentence but not already at its start is moved to the front. -/
def shuffle_try : List (List Char) → List Char → Option (List Char)
  | [], _ => none
  | ind :: rest, text =>
    if isSubstrList (toLowerList ind) (toLowerList text) then
      if isPrefixList (toLowerList ind) (toLowerList text) then shuffle_try rest text
      else some (ind ++ [' '] ++ replaceFirst ind [] text)
    else shuffle_try rest text

/-- Model of `ParaphraseGenerator._minor_shuffle_paraphrase`. -/
def minor_shuffle_paraphrase (text : List Char) : List Char :=
  match shuffle_try time_indicators text with
  | some r => r
  | none =>
    if isPrefixList "the ".toList (toLowerList text) then
      replaceFirst "The ".toList "It is reported that the ".toList text
    else text

/-- Model of `ParaphraseGenerator.generate_paraphrases`: exactly the three deterministic
strategies, in order. -/
def generate_paraphrases (synonyms : List SynonymEntry) (hedges : List (List Char))
    (tag : List Char → List SpacyToken) (text : List Char) : List (List Char) :=
  [synonym_paraphrase synonyms text,
    insert_hedge_paraphrase hedges (tag text) text,
    minor_shuffle_paraphrase text]

/-! ### AggregationEngine (`thi_pipeline.py`) -/

/-- Population variance as computed by `numpy.var`. -/
def variance (xs : List ℚ) : ℚ :=
  let n : ℚ := xs.length
  let mean := xs.sum / n
  ((xs.map (fun x => (x - mean) ^ 2)).sum) / n

/-- Model of `THIPipeline.compute_contradiction_score` on the NLI capability's output:
the first label containing "contradict" (case-insensitive), else the maximum
score over all labels; an empty label list makes Python's `max` raise, which
the surrounding `except` turns into the neutral `0.5`. -/
def compute_contradiction_score (result : List LabelScore) : ℚ :=
  match result.find? (fun ls => isSubstrList "contradict".toList (toLowerList ls.label)) with
  | some ls => ls.score
  | none =>
    match result with
    | [] => 1 / 2
    | ls :: rest => (rest.map (·.score)).foldl max ls.score

/-- The entailment probability read inside `compute_support_score`: first
label containing "entail", else `0.0`. -/
def entailment_probability (result : List LabelScore) : ℚ :=
  match result.find? (fun ls => isSubstrList "entail".toList (toLowerList ls.label)) with
  | some ls => ls.score
  | none => 0

/-- Model of `THIPipeline.compute_support_score`: `0.7 * entailment +
0.3 * max(0, similarity)`, clamped to at most `1`. -/
def compute_support_score (result : List LabelScore) (similarity : ℚ) : ℚ :=
  min (7 / 10 * entailment_probability result + 3 / 10 * max 0 similarity) 1

/-- Contradiction signal for one claim: the NLI capability is invoked with
`premise = evidence`, `hypothesis = claim`. -/
def pipeline_contradiction (P : Pipeline) (claim evidence : List Char) : ℚ :=
  compute_contradiction_score (P.caps.nli evidence claim)

/-- Support signal for one claim: NLI entailment plus embedding similarity. -/
def pipeline_support (P : Pipeline) (claim evidence : List Char) : ℚ :=
  compute_support_score (P.caps.nli evidence claim) (P.caps.embedSim claim evidence)

/-- Model of `THIPipeline.compute_instability_score`: generate the paraphrases, score
the original claim, collect a risk score `contradiction + (1 - support)` for
each paraphrase, and return `min(variance * 10, 1.0)` when more than one risk
score was collected.  As in the source, `original_contra` and
`original_support` are computed but never appended to `paraphrase_scores`. -/
def compute_instability_score (P : Pipeline) (claim evidence : List Char) : ℚ :=
  let paraphrases := generate_paraphrases P.synonyms P.hedges P.caps.tag claim
  let original_contra := pipeline_contradiction P claim evidence
  let original_support := pipeline_support P claim evidence
  let paraphrase_scores := paraphrases.map
    (fun para => pipeline_contradiction P para evidence + (1 - pipeline_support P para evidence))
  if 1 < paraphrase_scores.length then min (variance paraphrase_scores * 10) 1
  else 0

/-- The instability computation as the specification words it (spec 4.4/4.5):
the risk score of the original sentence is included among the values the
variance is taken over, and the metric applies once at least two risk values
are available.  Stated only to compare against
`compute_instability_score`, which is the code's behaviour. -/
def spec_instability_score (P : Pipeline) (claim evidence : List Char) : ℚ :=
  let texts := claim :: generate_paraphrases P.synonyms P.hedges P.caps.tag claim
  let riskScores := texts.map
    (fun t => pipeline_contradiction P t evidence + (1 - pipeline_support P t evidence))
  if 2 ≤ riskScores.length then min (variance riskScores * 10) 1
  else 0

/-- Speculative signal: `SpeculativeScorer.score_sentence`'s first component. -/
def compute_speculative_score (P : Pipeline) (claim : List Char) : ℚ :=
  (score_sentence P.specCfg P.caps.tokenize claim).1

/-- Numeric-sanity signal: run the extractor, and when it produced sentence
data, check its first entry; otherwise `0.0`. -/
def compute_numeric_sanity_score (P : Pipeline) (claim : List Char) : ℚ :=
  match P.caps.extract claim with
  | sd :: _ =>
    (check_sentence_claims P.sanityRules P.sanityThresholds P.caps.dateParse
      P.caps.currentYear sd).1
  | [] => 0

/-- Python `round(x, 4)` modelled with Mathlib's `round` (Python rounds exact
ties to even; no claim depends on tie behaviour). -/
def round4 (x : ℚ) : ℚ := ((round (x * 10000) : ℤ) : ℚ) / 10000

/-- The fusion formula `w0*contradiction + w1*(1-support) + w2*instability +
w3*speculative + w4*numericSanity`; Python indexes `self.weights[0..4]`. -/
def thi_formula (w : List ℚ) (contradiction support instability speculative numeric : ℚ) : ℚ :=
  w.getD 0 0 * contradiction + w.getD 1 0 * (1 - support) +
    w.getD 2 0 * instability + w.getD 3 0 * speculative + w.getD 4 0 * numeric

/-- The scores of one claim as reported by `compute_thi_for_claim` (the
numeric payload of the returned dictionary; all values are rounded to 4
decimal places for reporting, as in the source). -/
structure ClaimResult where
  thi_score : ℚ
  contradiction_score : ℚ
  support_score : ℚ
  instability_score : ℚ
  speculative_score : ℚ
  numeric_score : ℚ
deriving DecidableEq

/-- Model of `THIPipeline.compute_thi_for_claim`. -/
def compute_thi_for_claim (P : Pipeline) (claim evidence : List Char) : ClaimResult :=
  let contradiction_score := pipeline_contradiction P claim evidence
  let support_score := pipeline_support P claim evidence
  let instability_score := compute_instability_score P claim evidence
  let speculative_score := compute_speculative_score P claim
  let numeric_score := compute_numeric_sanity_score P claim
  { thi_score := round4 (thi_formula P.weights contradiction_score support_score
      instability_score speculative_score numeric_score)
    contradiction_score := round4 contradiction_score
    support_score := round4 support_score
    instability_score := round4 instability_score
    speculative_score := round4 speculative_score
    numeric_score := round4 numeric_score }

/-- The `DocumentResult` record: the numeric payload of `THIPipeline.process_text`. -/
structure DocumentResult where
  total_claims : ℕ
  overall_thi : ℚ
  binary_label : Bool
  high_risk_claims : ℕ
  medium_risk_claims : ℕ
  low_risk_claims : ℕ
  claims : List ClaimResult

/-- Model of `THIPipeline.process_text` on the segmented sentences (sentence splitting
is the delegated capability): score every sentence that is non-empty after
stripping, average the reported THI scores, classify at `0.5` and count the
three risk buckets. -/
def process_text (P : Pipeline) (sentences : List (List Char))
    (evidence : List Char) : DocumentResult :=
  let claim_results := (sentences.filter (fun s => !(trimList s).isEmpty)).map
    (fun s => compute_thi_for_claim P s evidence)
  let total_thi := (claim_results.map (·.thi_score)).sum
  let avg_thi := if claim_results.length = 0 then 0
    else total_thi / (claim_results.length : ℚ)
  { total_claims := claim_results.length
    overall_thi := round4 avg_thi
    binary_label := decide ((1 : ℚ) / 2 < avg_thi)
    high_risk_claims :=
      (claim_results.filter (fun r => decide ((7 : ℚ) / 10 < r.thi_score))).length
    medium_risk_claims :=
      (claim_results.filter
        (fun r => decide ((4 : ℚ) / 10 ≤ r.thi_score) && decide (r.thi_score ≤ 7 / 10))).length
    low_risk_claims :=
      (claim_results.filter (fun r => decide (r.thi_score < (4 : ℚ) / 10))).length
    claims := claim_results }

/-- The default THI weight vector. -/
def defaultWeights : List ℚ := [35 / 100, 30 / 100, 15 / 100, 10 / 100, 10 / 100]

/-- The weight handling of `THIPipeline.__init__`:
`self.weights = weights or [0.35, 0.30, 0.15, 0.10, 0.10]` — Python's `or`
falls back to the default exactly when the argument is `None` or an empty
(falsy) list, with no validation or normalisation of a supplied vector. -/
def init_weights : Option (List ℚ) → List ℚ
  | none => defaultWeights
  | some w => if w.isEmpty then defaultWeights else w

/-- Model of `THIPipeline.update_weights`: validate the length and the entry range,
then divide by the sum.  An all-zero vector passes both checks and the
division raises `ZeroDivisionError` (Python: `float division by zero`),
modelled as the explicit error case. -/
def update_weights (new_weights : List ℚ) : Except String (List ℚ) :=
  if new_weights.length ≠ 5 then .error "Must provide exactly 5 weights"
  else if !(new_weights.all fun w => decide (0 ≤ w) && decide (w ≤ 1)) then
    .error "Weights must be between 0 and 1"
  else
    let total := new_weights.sum
    if total = 0 then .error "ZeroDivisionError: float division by zero"
    else .ok (new_weights.map (fun w => w / total))

/-- Effect of calling `update_weights` on a pipeline whose stored vector is
`st`: on success the vector is replaced, on an exception it is unchanged
(the assignment in the source happens after the division). -/
def update_weights_state (st new_weights : List ℚ) : List ℚ × Option String :=
  match update_weights new_weights with
  | .ok w => (w, none)
  | .error e => (st, some e)

/-- The weight effect of one `POST /analyze` request on the shared pipeline
(`thi_server.py`): `if request.custom_weights:` is a Python truthiness test,
so `None` and the empty list skip the update; otherwise `update_weights` is
applied to the singleton pipeline and the new vector persists.  The request
itself is then scored with the resulting state. -/
def analyze_weights_step (st : List ℚ) (custom_weights : Option (List ℚ)) : List ℚ :=
  match custom_weights with
  | none => st
  | some cw =>
    if cw.isEmpty then st
    else (update_weights_state st cw).1

/-! ### Concrete fixtures

Capability instantiations and inputs used to evaluate the definitions at
concrete points. -/

/-- Capabilities under which the NLI model contradicts exactly the sentence
"The cat sat" and nothing else; every other capability is inert. -/
def ceCaps : Capabilities where
  nli := fun _prem hyp =>
    if hyp = "The cat sat".toList then [⟨"contradiction".toList, 1⟩]
    else [⟨"contradiction".toList, 0⟩]
  embedSim := fun _ _ => 0
  tokenize := fun _ => []
  tag := fun _ => []
  extract := fun _ => []
  dateParse := fun _ => none
  currentYear := 2025

/-- A pipeline over `ceCaps` whose synonym table maps "cat" to "feline", so
that all three paraphrases of "The cat sat" differ from the original. -/
def cePipeline : Pipeline where
  weights := defaultWeights
  caps := ceCaps
  specCfg := ⟨[], [], 0, 0⟩
  sanityRules := ⟨⟨true, 50⟩, true, true, true⟩
  sanityThresholds := ⟨250, 650, 60⟩
  synonyms := [⟨"cat".toList, "feline".toList, []⟩]
  hedges := ["possibly".toList]

/-- Fully inert capabilities: the NLI model returns no labels (Python's
`max` on an empty sequence raises, giving the neutral `0.5` default). -/
def inertCaps : Capabilities where
  nli := fun _ _ => []
  embedSim := fun _ _ => 0
  tokenize := fun _ => []
  tag := fun _ => []
  extract := fun _ => []
  dateParse := fun _ => none
  currentYear := 2025

/-- A default-configured pipeline over `inertCaps`. -/
def inertPipeline : Pipeline where
  weights := defaultWeights
  caps := inertCaps
  specCfg := ⟨[], [], 0, 0⟩
  sanityRules := ⟨⟨true, 50⟩, true, true, true⟩
  sanityThresholds := ⟨250, 650, 60⟩
  synonyms := []
  hedges := []

/-- The demo sentence data of `sanity.py` (its `demo()` constructs exactly
these mention lists for the 500%-in-one-day sentence). -/
def demoSD : SentenceData where
  text := "The stock jumped 500% in one day, reaching $1000 billion market cap.".toList
  claims :=
    { entities := []
      numbers := [⟨"1000".toList⟩]
      percents := [⟨"500%".toList⟩]
      money := [⟨"$1000 billion".toList⟩]
      dates := [] }

/-- Sanity rules with `percent_jump` enabled at threshold 50 (the spec's
scenario configuration) and every other rule enabled. -/
def demoRules : SanityRules := ⟨⟨true, 50⟩, true, true, true⟩

/-- Plausibility thresholds for the unit-absurdity rule. -/
def demoThresholds : SanityThresholds := ⟨250, 650, 60⟩

/-- Tagging of "The brand ran ads.": the first non-auxiliary verb is "ran",
whose text also occurs earlier inside the noun "brand". -/
def brandDoc : List SpacyToken :=
  [⟨"The".toList, "DET".toList, "det".toList⟩,
    ⟨"brand".toList, "NOUN".toList, "nsubj".toList⟩,
    ⟨"ran".toList, "VERB".toList, "ROOT".toList⟩,
    ⟨"ads".toList, "NOUN".toList, "dobj".toList⟩,
    ⟨".".toList, "PUNCT".toList, "punct".toList⟩]

/-- Tagging of "The cat sat.": the only verb text "sat" first occurs at the
verb itself. -/
def catDoc : List SpacyToken :=
  [⟨"The".toList, "DET".toList, "det".toList⟩,
    ⟨"cat".toList, "NOUN".toList, "nsubj".toList⟩,
    ⟨"sat".toList, "VERB".toList, "ROOT".toList⟩,
    ⟨".".toList, "PUNCT".toList, "punct".toList⟩]

/-- A speculative-scorer configuration with one hedge word and unit weights. -/
def hedgeCfg : SpecConfig := ⟨["might".toList], [], 1, 1⟩

/-- A tokenizer whose output is a single plain token with lemma "might". -/
def mightTokenizer : List Char → List Token := fun _ => [⟨"might".toList, false, false⟩]

/-- A tokenizer producing no tokens (an empty or punctuation-only sentence). -/
def emptyTokenizer : List Char → List Token := fun _ => []

/-! ## Helper lemmas -/

theorem sum_map_div (l : List ℚ) (c : ℚ) :
    (l.map (fun x => x / c)).sum = l.sum / c := by
  induction l with
  | nil => simp
  | cons a t ih => simp [ih, add_div]

theorem le_foldl_max (l : List ℚ) (a : ℚ) : a ≤ l.foldl max a := by
  induction l generalizing a with
  | nil => simp
  | cons x t ih => exact le_trans (le_max_left a x) (ih (max a x))

theorem foldl_max_le (l : List ℚ) (a c : ℚ) (ha : a ≤ c) (hl : ∀ x ∈ l, x ≤ c) :
    l.foldl max a ≤ c := by
  induction l generalizing a with
  | nil => simpa using ha
  | cons x t ih =>
    exact ih (max a x) (max_le ha (hl x (by simp))) fun y hy => hl y (by simp [hy])

theorem variance_nonneg (xs : List ℚ) : 0 ≤ variance xs := by
  unfold variance
  apply div_nonneg
  · apply List.sum_nonneg
    intro x hx
    obtain ⟨y, _, rfl⟩ := List.mem_map.1 hx
    positivity
  · positivity

theorem round4_nonneg (x : ℚ) (h0 : 0 ≤ x) : 0 ≤ round4 x := by
  unfold round4
  apply div_nonneg _ (by norm_num)
  have h : (0 : ℤ) ≤ round (x * 10000) := by
    rw [round_eq]
    apply Int.le_floor.2
    push_cast
    linarith
  exact_mod_cast h

theorem round4_le_one (x : ℚ) (h1 : x ≤ 1) : round4 x ≤ 1 := by
  unfold round4
  rw [div_le_one (by norm_num)]
  have h : round (x * 10000) < 10001 := by
    rw [round_eq]
    apply Int.floor_lt.2
    push_cast
    linarith
  have h2 : round (x * 10000) ≤ 10000 := by omega
  exact_mod_cast h2

theorem length_filterMap_eq_countP {α β : Type} (f : α → Option β) (l : List α) :
    (l.filterMap f).length = l.countP (fun a => (f a).isSome) := by
  induction l with
  | nil => rfl
  | cons a t ih =>
    cases h : f a <;>
      simp [List.filterMap_cons, h, List.countP_cons, ih]

/-- A helper shared by the weight claims: a valid weight vector with a
non-zero sum passes every check of `update_weights` and is divided by its
sum. -/
theorem update_weights_ok (ws : List ℚ) (h5 : ws.length = 5)
    (hr : ∀ w ∈ ws, 0 ≤ w ∧ w ≤ 1) (hs : ws.sum ≠ 0) :
    update_weights ws = Except.ok (ws.map (fun w => w / ws.sum)) := by
  have hall : (ws.all fun w => decide (0 ≤ w) && decide (w ≤ 1)) = true := by
    rw [List.all_eq_true]
    intro w hw
    simp [(hr w hw).1, (hr w hw).2]
  unfold update_weights
  rw [if_neg (by simp [h5])]
  rw [hall]
  simp only [Bool.not_true, Bool.false_eq_true, if_false]
  rw [if_neg hs]

/-! ## Claim C2 -/

/-- C2 (corrected): for every weight vector of length 5 with entries in
`[0,1]` **and a non-zero sum**, `update_weights` succeeds and the stored
vector has length 5, entries in `[0,1]` and sums to 1; in particular
`update_weights [0.7, 0.6, 0.3, 0.2, 0.2]` stores
`[0.35, 0.30, 0.15, 0.10, 0.10]`.  The non-zero-sum restriction is forced by
the all-zero counterexample. -/
theorem update_weights_normalizes_valid_nonzero (ws : List ℚ) (h5 : ws.length = 5)
    (hr : ∀ w ∈ ws, 0 ≤ w ∧ w ≤ 1) (hs : ws.sum ≠ 0) :
    (update_weights ws = Except.ok (ws.map (fun w => w / ws.sum)) ∧
      (ws.map (fun w => w / ws.sum)).length = 5 ∧
      (∀ v ∈ ws.map (fun w => w / ws.sum), 0 ≤ v ∧ v ≤ 1) ∧
      (ws.map (fun w => w / ws.sum)).sum = 1) ∧
    update_weights [7/10, 6/10, 3/10, 2/10, 2/10] =
      Except.ok [35/100, 30/100, 15/100, 10/100, 10/100] := by
  have htpos : 0 < ws.sum :=
    lt_of_le_of_ne (List.sum_nonneg fun w hw => (hr w hw).1) (Ne.symm hs)
  refine ⟨⟨update_weights_ok ws h5 hr hs, by simp [h5], ?_, ?_⟩, ?_⟩
  · intro v hv
    obtain ⟨w, hw, rfl⟩ := List.mem_map.1 hv
    exact ⟨div_nonneg (hr w hw).1 htpos.le,
      (div_le_one htpos).2 (List.single_le_sum (fun x hx => (hr x hx).1) _ hw)⟩
  · rw [sum_map_div, div_self hs]
  · norm_num [update_weights]

/-- Witness for C2 at the scenario input `[0.7, 0.6, 0.3, 0.2, 0.2]`. -/
theorem update_weights_normalizes_valid_nonzero_witness :
    update_weights [7/10, 6/10, 3/10, 2/10, 2/10] =
      Except.ok [35/100, 30/100, 15/100, 10/100, 10/100] :=
  (update_weights_normalizes_valid_nonzero [7/10, 6/10, 3/10, 2/10, 2/10]
    (by norm_num)
    (by intro w hw; fin_cases hw <;> norm_num)
    (by norm_num)).2

/-- Counterexample to C2 as stated: the all-zero vector has length 5 and
every entry in `[0,1]`, yet `update_weights` raises instead of storing a
normalized vector. -/
theorem update_weights_zero_vector_counterexample :
    ([0, 0, 0, 0, 0] : List ℚ).length = 5 ∧
    ((([0, 0, 0, 0, 0] : List ℚ)).all fun w => decide (0 ≤ w) && decide (w ≤ 1)) = true ∧
    update_weights [0, 0, 0, 0, 0] =
      Except.error "ZeroDivisionError: float division by zero" := by
  refine ⟨by norm_num, by norm_num, ?_⟩
  norm_num [update_weights]

/-! ## Claim C8 -/

/-- C8 (confirmed): the all-zero vector passes both explicit validation
checks of `update_weights` (length 5, entries in `[0,1]`), and the
normalization then divides by the zero sum, raising `ZeroDivisionError`
rather than a descriptive validation rejection; the stored weight vector is
left unchanged by the failed call. -/
theorem update_weights_zero_division (st : List ℚ) :
    ([0, 0, 0, 0, 0] : List ℚ).length = 5 ∧
    ((([0, 0, 0, 0, 0] : List ℚ)).all fun w => decide (0 ≤ w) && decide (w ≤ 1)) = true ∧
    ([0, 0, 0, 0, 0] : List ℚ).sum = 0 ∧
    update_weights_state st [0, 0, 0, 0, 0] =
      (st, some "ZeroDivisionError: float division by zero") := by
  refine ⟨by norm_num, by norm_num, by norm_num, ?_⟩
  have herr : update_weights [0, 0, 0, 0, 0] =
      Except.error "ZeroDivisionError: float division by zero" := by
    norm_num [update_weights]
  rw [update_weights_state, herr]

/-! ## Claim C9 -/

/-- C9 (confirmed): a request carrying valid `custom_weights` permanently
replaces the shared pipeline's weight vector with the normalized vector, and
a subsequent request without `custom_weights` is scored with that vector; in
particular after `custom_weights = [1,1,1,1,1]` the next plain request uses
`[0.2, 0.2, 0.2, 0.2, 0.2]`, not the default `[0.35, 0.30, 0.15, 0.10, 0.10]`. -/
theorem analyze_custom_weights_persist (st cw : List ℚ) (h5 : cw.length = 5)
    (hr : ∀ w ∈ cw, 0 ≤ w ∧ w ≤ 1) (hs : cw.sum ≠ 0) :
    (analyze_weights_step st (some cw) = cw.map (fun w => w / cw.sum) ∧
      analyze_weights_step (analyze_weights_step st (some cw)) none =
        cw.map (fun w => w / cw.sum)) ∧
    (analyze_weights_step defaultWeights (some [1, 1, 1, 1, 1]) =
        [1/5, 1/5, 1/5, 1/5, 1/5] ∧
      analyze_weights_step ([1/5, 1/5, 1/5, 1/5, 1/5] : List ℚ) none =
        [1/5, 1/5, 1/5, 1/5, 1/5] ∧
      ([1/5, 1/5, 1/5, 1/5, 1/5] : List ℚ) ≠ defaultWeights) := by
  have hne : cw.isEmpty = false := by
    cases cw
    · simp at h5
    · rfl
  have hstep : analyze_weights_step st (some cw) = cw.map (fun w => w / cw.sum) := by
    rw [analyze_weights_step, hne]
    simp only [Bool.false_eq_true, if_false]
    rw [update_weights_state, update_weights_ok cw h5 hr hs]
  refine ⟨⟨hstep, by rw [hstep]; rfl⟩, ?_, rfl, ?_⟩
  · have h15 : (([1, 1, 1, 1, 1] : List ℚ)).sum = 5 := by norm_num
    have := update_weights_ok [1, 1, 1, 1, 1] (by norm_num)
      (by intro w hw; fin_cases hw <;> norm_num) (by norm_num)
    rw [analyze_weights_step]
    simp only [List.isEmpty_cons, Bool.false_eq_true, if_false]
    rw [update_weights_state, this, h15]
    norm_num
  · simp only [defaultWeights]
    intro h
    have := List.head_eq_of_cons_eq h
    norm_num at this

/-- Witness for C9: the shared state after `custom_weights = [1,1,1,1,1]`
and after the subsequent weightless request. -/
theorem analyze_custom_weights_persist_witness :
    analyze_weights_step defaultWeights (some [1, 1, 1, 1, 1]) =
        [1/5, 1/5, 1/5, 1/5, 1/5] ∧
      analyze_weights_step ([1/5, 1/5, 1/5, 1/5, 1/5] : List ℚ) none =
        [1/5, 1/5, 1/5, 1/5, 1/5] ∧
      ([1/5, 1/5, 1/5, 1/5, 1/5] : List ℚ) ≠ defaultWeights :=
  (analyze_custom_weights_persist defaultWeights [1, 1, 1, 1, 1] (by norm_num)
    (by intro w hw; fin_cases hw <;> norm_num) (by norm_num)).2

/-! ## Claim C1 -/

/-- C1 (corrected): the instability signal generates the 3 paraphrases and
returns `min(variance(riskScores) * 10, 1.0)` over the per-paraphrase risks
`contradiction + (1 - support)` — but only over the 3 paraphrase risks: the
original sentence's contradiction and support are computed and discarded, so
its risk value is not among the values the variance is taken over. -/
theorem compute_instability_paraphrase_variance (P : Pipeline)
    (claim evidence : List Char) :
    (generate_paraphrases P.synonyms P.hedges P.caps.tag claim).length = 3 ∧
    compute_instability_score P claim evidence =
      min (variance ((generate_paraphrases P.synonyms P.hedges P.caps.tag claim).map
        (fun para => pipeline_contradiction P para evidence +
          (1 - pipeline_support P para evidence))) * 10) 1 := by
  refine ⟨rfl, ?_⟩
  simp only [compute_instability_score]
  rw [if_pos (by simp [generate_paraphrases])]

/-- Counterexample to C1 as stated: with `cePipeline` the original claim
"The cat sat" has risk 2 while its three paraphrases each have risk 1, so
the variance including the original's risk would give instability 1
(`spec_instability_score`), yet the code returns 0. -/
theorem compute_instability_spec_mismatch :
    compute_instability_score cePipeline "The cat sat".toList "e".toList = 0 ∧
    spec_instability_score cePipeline "The cat sat".toList "e".toList = 1 ∧
    (0 : ℚ) ≠ 1 := by
  have hpara : generate_paraphrases cePipeline.synonyms cePipeline.hedges
      cePipeline.caps.tag "The cat sat".toList =
      ["The feline sat".toList, "Possibly The cat sat".toList,
        "It is reported that the cat sat".toList] := by decide
  have hnli : ∀ t : List Char, t ≠ "The cat sat".toList →
      cePipeline.caps.nli "e".toList t = [⟨"contradiction".toList, 0⟩] :=
    fun t ht => if_neg ht
  have hnliOrig : cePipeline.caps.nli "e".toList "The cat sat".toList =
      [⟨"contradiction".toList, 1⟩] := by decide
  have hc : ∀ t : List Char, t ≠ "The cat sat".toList →
      pipeline_contradiction cePipeline t "e".toList = 0 := by
    intro t ht
    rw [pipeline_contradiction, hnli t ht]
    decide
  have hcOrig : pipeline_contradiction cePipeline "The cat sat".toList "e".toList = 1 := by
    rw [pipeline_contradiction, hnliOrig]
    decide
  have hsim : ∀ t : List Char, cePipeline.caps.embedSim t "e".toList = 0 := fun _ => rfl
  have hs : ∀ t : List Char, t ≠ "The cat sat".toList →
      pipeline_support cePipeline t "e".toList = 0 := by
    intro t ht
    rw [pipeline_support, hnli t ht]
    show min (7 / 10 * entailment_probability [⟨"contradiction".toList, 0⟩] +
      3 / 10 * max 0 (cePipeline.caps.embedSim t "e".toList)) 1 = 0
    rw [show entailment_probability [⟨"contradiction".toList, (0 : ℚ)⟩] = 0 from by decide,
      hsim t]
    norm_num
  have hsOrig : pipeline_support cePipeline "The cat sat".toList "e".toList = 0 := by
    rw [pipeline_support, hnliOrig]
    show min (7 / 10 * entailment_probability [⟨"contradiction".toList, 1⟩] +
      3 / 10 * max 0 (cePipeline.caps.embedSim "The cat sat".toList "e".toList)) 1 = 0
    rw [show entailment_probability [⟨"contradiction".toList, (1 : ℚ)⟩] = 0 from by decide,
      hsim "The cat sat".toList]
    norm_num
  refine ⟨?_, ?_, by norm_num⟩
  · rw [compute_instability_score, hpara]
    rw [List.map_cons, List.map_cons, List.map_cons, List.map_nil]
    rw [hc _ (by decide), hc _ (by decide), hc _ (by decide),
      hs _ (by decide), hs _ (by decide), hs _ (by decide)]
    norm_num [variance]
  · rw [spec_instability_score, hpara]
    rw [List.map_cons, List.map_cons, List.map_cons, List.map_cons, List.map_nil]
    rw [hcOrig, hsOrig, hc _ (by decide), hc _ (by decide), hc _ (by decide),
      hs _ (by decide), hs _ (by decide), hs _ (by decide)]
    norm_num [variance, min_def]

/-! ## Claim C10 -/

/-- C10 (confirmed): the constructor stores any non-empty weights argument
raw — no length, range or sum validation and no normalization — so the
fused-THI-in-`[0,1]` invariant only holds under the precondition that the
supplied weights are non-negative and sum to at most 1; with raw weights
`[2,2,2,2,2]` and admissible component scores the formula reaches 10. -/
theorem init_weights_raw_thi_bound (w : List ℚ) (hw : w ≠ [])
    (w0 w1 w2 w3 w4 c s i sp n : ℚ)
    (h0 : 0 ≤ w0) (h1 : 0 ≤ w1) (h2 : 0 ≤ w2) (h3 : 0 ≤ w3) (h4 : 0 ≤ w4)
    (hsum : w0 + w1 + w2 + w3 + w4 ≤ 1)
    (hc : 0 ≤ c ∧ c ≤ 1) (hs : 0 ≤ s ∧ s ≤ 1) (hi : 0 ≤ i ∧ i ≤ 1)
    (hsp : 0 ≤ sp ∧ sp ≤ 1) (hn : 0 ≤ n ∧ n ≤ 1) :
    init_weights (some w) = w ∧
    (0 ≤ thi_formula [w0, w1, w2, w3, w4] c s i sp n ∧
      thi_formula [w0, w1, w2, w3, w4] c s i sp n ≤ 1) ∧
    (init_weights (some [2, 2, 2, 2, 2]) = [2, 2, 2, 2, 2] ∧
      thi_formula [2, 2, 2, 2, 2] 1 0 1 1 1 = 10) := by
  have hform : ∀ a0 a1 a2 a3 a4 x y z u v : ℚ,
      thi_formula [a0, a1, a2, a3, a4] x y z u v =
        a0 * x + a1 * (1 - y) + a2 * z + a3 * u + a4 * v :=
    fun _ _ _ _ _ _ _ _ _ _ => rfl
  have h1s : 0 ≤ 1 - s := by linarith [hs.2]
  have h1s' : 1 - s ≤ 1 := by linarith [hs.1]
  refine ⟨?_, ⟨?_, ?_⟩, rfl, ?_⟩
  · cases w
    · exact absurd rfl hw
    · rfl
  · rw [hform]
    have t0 := mul_nonneg h0 hc.1
    have t1 := mul_nonneg h1 h1s
    have t2 := mul_nonneg h2 hi.1
    have t3 := mul_nonneg h3 hsp.1
    have t4 := mul_nonneg h4 hn.1
    linarith
  · rw [hform]
    have t0 := mul_le_of_le_one_right h0 hc.2
    have t1 := mul_le_of_le_one_right h1 h1s'
    have t2 := mul_le_of_le_one_right h2 hi.2
    have t3 := mul_le_of_le_one_right h3 hsp.2
    have t4 := mul_le_of_le_one_right h4 hn.2
    linarith
  · rw [hform]
    norm_num

/-- Witness for C10 at concrete raw weights and component scores. -/
theorem init_weights_raw_thi_bound_witness :
    init_weights (some [2, 2, 2, 2, 2]) = [2, 2, 2, 2, 2] ∧
    thi_formula [2, 2, 2, 2, 2] 1 0 1 1 1 = 10 :=
  (init_weights_raw_thi_bound [2, 2, 2, 2, 2] (by decide)
    (35/100) (30/100) (15/100) (10/100) (10/100) 1 1 1 0 0
    (by norm_num) (by norm_num) (by norm_num) (by norm_num) (by norm_num)
    (by norm_num) (by norm_num) (by norm_num) (by norm_num)
    (by norm_num) (by norm_num)).2.2

/-! ## Claim C7 -/

/-- Three-bucket counting helper: the strict-greater, closed-interval and
strict-less buckets at thresholds 0.7 and 0.4 count every element exactly
once. -/
theorem bucket_partition (l : List ClaimResult) :
    (l.filter fun r => decide ((7 : ℚ) / 10 < r.thi_score)).length +
      (l.filter fun r =>
        decide ((4 : ℚ) / 10 ≤ r.thi_score) && decide (r.thi_score ≤ 7 / 10)).length +
      (l.filter fun r => decide (r.thi_score < (4 : ℚ) / 10)).length = l.length := by
  induction l with
  | nil => rfl
  | cons a t ih =>
    rcases lt_or_le ((7 : ℚ) / 10) a.thi_score with h1 | h1
    · have hbgt := decide_eq_true h1
      have hble : decide (a.thi_score ≤ (7 : ℚ) / 10) = false :=
        decide_eq_false (not_le.2 h1)
      have hblt : decide (a.thi_score < (4 : ℚ) / 10) = false :=
        decide_eq_false (by push_neg; linarith)
      simp [List.filter_cons, hbgt, hble, hblt]
      omega
    · rcases lt_or_le a.thi_score ((4 : ℚ) / 10) with h2 | h2
      · have hbgt : decide ((7 : ℚ) / 10 < a.thi_score) = false :=
          decide_eq_false (not_lt.2 h1)
        have hbge : decide ((4 : ℚ) / 10 ≤ a.thi_score) = false :=
          decide_eq_false (not_le.2 h2)
        have hblt := decide_eq_true h2
        simp [List.filter_cons, hbgt, hbge, hblt]
        omega
      · have hbgt : decide ((7 : ℚ) / 10 < a.thi_score) = false :=
          decide_eq_false (not_lt.2 h1)
        have hbge := decide_eq_true h2
        have hble := decide_eq_true h1
        have hblt : decide (a.thi_score < (4 : ℚ) / 10) = false :=
          decide_eq_false (not_lt.2 h2)
        simp [List.filter_cons, hbgt, hbge, hble, hblt]
        omega

/-- C7 (confirmed): in every `DocumentResult` produced by `process_text` the
high (`thi > 0.7`), medium (`0.4 ≤ thi ≤ 0.7`) and low (`thi < 0.4`) bucket
counts sum to `totalClaims`. -/
theorem process_text_summary_partition (P : Pipeline)
    (sentences : List (List Char)) (evidence : List Char) :
    (process_text P sentences evidence).high_risk_claims +
      (process_text P sentences evidence).medium_risk_claims +
      (process_text P sentences evidence).low_risk_claims =
      (process_text P sentences evidence).total_claims := by
  simp only [process_text]
  exact bucket_partition _

/-! ## Claim C6 -/

/-- C6 (confirmed): the speculative score is
`min(weightedSum / (0.02 * tokenCount), 1.0)` over the lemmatized,
punctuation/whitespace-filtered tokens, and an empty filtered token list
yields `(0.0, {hedges: 0, absolutes: 0, tokens: 0})`. -/
theorem score_sentence_formula (cfg : SpecConfig)
    (tokenize : List Char → List Token) (text : List Char) :
    (((tokenize (toLowerList text)).filter
        (fun t => !t.is_punct && !t.is_space)).map (·.lemma_) = [] →
      score_sentence cfg tokenize text = (0, ⟨0, 0, 0⟩)) ∧
    (∀ tks, ((tokenize (toLowerList text)).filter
        (fun t => !t.is_punct && !t.is_space)).map (·.lemma_) = tks → tks ≠ [] →
      score_sentence cfg tokenize text =
        (min (((tks.countP (fun t => cfg.hedges.contains t) : ℚ) * cfg.weight_hedge +
            (tks.countP (fun t => cfg.absolutes.contains t) : ℚ) * cfg.weight_absolute) /
          (2 / 100 * (tks.length : ℚ))) 1,
          ⟨tks.countP (fun t => cfg.hedges.contains t),
            tks.countP (fun t => cfg.absolutes.contains t), tks.length⟩)) := by
  constructor
  · intro h
    rw [score_sentence, h]
    rfl
  · intro tks htks hne
    rw [score_sentence, htks]
    rw [if_neg (by simpa [List.isEmpty_iff] using hne)]

/-- Witness for C6: a one-hedge-token sentence scores
`min(1 / 0.02, 1) = 1` with counts `(1, 0, 1)`, and an empty tokenization
scores `(0, (0, 0, 0))`. -/
theorem score_sentence_formula_witness :
    score_sentence hedgeCfg mightTokenizer "x".toList = (1, ⟨1, 0, 1⟩) ∧
    score_sentence hedgeCfg emptyTokenizer "".toList = (0, ⟨0, 0, 0⟩) := by
  constructor
  · have h := (score_sentence_formula hedgeCfg mightTokenizer "x".toList).2
      ["might".toList] (by decide) (by decide)
    rw [h]
    norm_num [hedgeCfg]
  · exact (score_sentence_formula hedgeCfg emptyTokenizer "".toList).1 rfl

/-! ## Claim C3 -/

theorem compute_contradiction_score_bounds (r : List LabelScore)
    (h : ∀ ls ∈ r, 0 ≤ ls.score ∧ ls.score ≤ 1) :
    0 ≤ compute_contradiction_score r ∧ compute_contradiction_score r ≤ 1 := by
  rcases hf : r.find?
      (fun ls => isSubstrList "contradict".toList (toLowerList ls.label)) with - | ls
  · simp only [compute_contradiction_score, hf]
    cases r with
    | nil => norm_num
    | cons a t =>
      constructor
      · exact le_trans (h a (by simp)).1 (le_foldl_max _ _)
      · apply foldl_max_le
        · exact (h a (by simp)).2
        · intro x hx
          obtain ⟨l', hl', rfl⟩ := List.mem_map.1 hx
          exact (h l' (by simp [hl'])).2
  · simp only [compute_contradiction_score, hf]
    exact h ls (List.mem_of_find?_eq_some hf)

theorem entailment_probability_nonneg (r : List LabelScore)
    (h : ∀ ls ∈ r, 0 ≤ ls.score ∧ ls.score ≤ 1) : 0 ≤ entailment_probability r := by
  rcases hf : r.find?
      (fun ls => isSubstrList "entail".toList (toLowerList ls.label)) with - | ls
  · simp only [entailment_probability, hf]
    norm_num
  · simp only [entailment_probability, hf]
    exact (h ls (List.mem_of_find?_eq_some hf)).1

theorem compute_support_score_bounds (r : List LabelScore) (sim : ℚ)
    (h : ∀ ls ∈ r, 0 ≤ ls.score ∧ ls.score ≤ 1) :
    0 ≤ compute_support_score r sim ∧ compute_support_score r sim ≤ 1 := by
  unfold compute_support_score
  refine ⟨le_min ?_ zero_le_one, min_le_right _ _⟩
  have he := entailment_probability_nonneg r h
  have hm : (0 : ℚ) ≤ max 0 sim := le_max_left 0 sim
  positivity

theorem compute_instability_score_bounds (P : Pipeline) (claim evidence : List Char) :
    0 ≤ compute_instability_score P claim evidence ∧
      compute_instability_score P claim evidence ≤ 1 := by
  simp only [compute_instability_score]
  constructor
  · split
    · exact le_min (mul_nonneg (variance_nonneg _) (by norm_num)) zero_le_one
    · norm_num
  · split
    · exact min_le_right _ _
    · norm_num

theorem score_sentence_fst_bounds (cfg : SpecConfig)
    (tokenize : List Char → List Token) (text : List Char)
    (hh : 0 ≤ cfg.weight_hedge) (ha : 0 ≤ cfg.weight_absolute) :
    0 ≤ (score_sentence cfg tokenize text).1 ∧
      (score_sentence cfg tokenize text).1 ≤ 1 := by
  simp only [score_sentence]
  constructor
  · split
    · norm_num
    · refine le_trans (le_min ?_ zero_le_one) (le_of_eq rfl)
      apply div_nonneg
      · exact add_nonneg (mul_nonneg (Nat.cast_nonneg _) hh)
          (mul_nonneg (Nat.cast_nonneg _) ha)
      · positivity
  · split
    · norm_num
    · exact min_le_right _ _

theorem check_sentence_claims_fst_bounds (rules : SanityRules)
    (th : SanityThresholds) (dateParse : List Char → Option ℤ) (year : ℤ)
    (sd : SentenceData) :
    0 ≤ (check_sentence_claims rules th dateParse year sd).1 ∧
      (check_sentence_claims rules th dateParse year sd).1 ≤ 1 := by
  simp only [check_sentence_claims]
  constructor
  · split
    · norm_num
    · refine le_min ?_ zero_le_one
      apply div_nonneg (Nat.cast_nonneg _)
      exact le_trans zero_le_one (le_max_left _ _)
  · split
    · norm_num
    · exact min_le_right _ _

theorem compute_numeric_sanity_score_bounds (P : Pipeline) (claim : List Char) :
    0 ≤ compute_numeric_sanity_score P claim ∧
      compute_numeric_sanity_score P claim ≤ 1 := by
  simp only [compute_numeric_sanity_score]
  constructor
  · split
    · exact (check_sentence_claims_fst_bounds _ _ _ _ _).1
    · norm_num
  · split
    · exact (check_sentence_claims_fst_bounds _ _ _ _ _).2
    · norm_num

/-- Shared bound on the fusion formula for a length-5 weight vector with
non-negative entries summing to at most one, given component bounds. -/
theorem thi_formula_bounds (w0 w1 w2 w3 w4 c s i sp n : ℚ)
    (h0 : 0 ≤ w0) (h1 : 0 ≤ w1) (h2 : 0 ≤ w2) (h3 : 0 ≤ w3) (h4 : 0 ≤ w4)
    (hsum : w0 + w1 + w2 + w3 + w4 ≤ 1)
    (hc : 0 ≤ c ∧ c ≤ 1) (hs : 0 ≤ s ∧ s ≤ 1) (hi : 0 ≤ i ∧ i ≤ 1)
    (hsp : 0 ≤ sp ∧ sp ≤ 1) (hn : 0 ≤ n ∧ n ≤ 1) :
    0 ≤ thi_formula [w0, w1, w2, w3, w4] c s i sp n ∧
      thi_formula [w0, w1, w2, w3, w4] c s i sp n ≤ 1 := by
  have hform : thi_formula [w0, w1, w2, w3, w4] c s i sp n =
      w0 * c + w1 * (1 - s) + w2 * i + w3 * sp + w4 * n := rfl
  have h1s : 0 ≤ 1 - s := by linarith [hs.2]
  have h1s' : 1 - s ≤ 1 := by linarith [hs.1]
  rw [hform]
  constructor
  · have t0 := mul_nonneg h0 hc.1
    have t1 := mul_nonneg h1 h1s
    have t2 := mul_nonneg h2 hi.1
    have t3 := mul_nonneg h3 hsp.1
    have t4 := mul_nonneg h4 hn.1
    linarith
  · have t0 := mul_le_of_le_one_right h0 hc.2
    have t1 := mul_le_of_le_one_right h1 h1s'
    have t2 := mul_le_of_le_one_right h2 hi.2
    have t3 := mul_le_of_le_one_right h3 hsp.2
    have t4 := mul_le_of_le_one_right h4 hn.2
    linarith

/-- C3 (confirmed): with weights that are non-negative and sum to 1 (the
stored vector's invariant) and NLI label probabilities in `[0,1]` and the
non-negative lexicon weights of the rule config, every reported component
score and the fused THI of `compute_thi_for_claim` lie in `[0,1]`. -/
theorem compute_thi_for_claim_components_bounded (P : Pipeline)
    (claim evidence : List Char) (w0 w1 w2 w3 w4 : ℚ)
    (hw : P.weights = [w0, w1, w2, w3, w4])
    (h0 : 0 ≤ w0) (h1 : 0 ≤ w1) (h2 : 0 ≤ w2) (h3 : 0 ≤ w3) (h4 : 0 ≤ w4)
    (hsum : w0 + w1 + w2 + w3 + w4 = 1)
    (hnli : ∀ premise hyp : List Char, ∀ ls ∈ P.caps.nli premise hyp,
      0 ≤ ls.score ∧ ls.score ≤ 1)
    (hwh : 0 ≤ P.specCfg.weight_hedge) (hwa : 0 ≤ P.specCfg.weight_absolute) :
    (0 ≤ (compute_thi_for_claim P claim evidence).contradiction_score ∧
      (compute_thi_for_claim P claim evidence).contradiction_score ≤ 1) ∧
    (0 ≤ (compute_thi_for_claim P claim evidence).support_score ∧
      (compute_thi_for_claim P claim evidence).support_score ≤ 1) ∧
    (0 ≤ (compute_thi_for_claim P claim evidence).instability_score ∧
      (compute_thi_for_claim P claim evidence).instability_score ≤ 1) ∧
    (0 ≤ (compute_thi_for_claim P claim evidence).speculative_score ∧
      (compute_thi_for_claim P claim evidence).speculative_score ≤ 1) ∧
    (0 ≤ (compute_thi_for_claim P claim evidence).numeric_score ∧
      (compute_thi_for_claim P claim evidence).numeric_score ≤ 1) ∧
    (0 ≤ (compute_thi_for_claim P claim evidence).thi_score ∧
      (compute_thi_for_claim P claim evidence).thi_score ≤ 1) := by
  have hcb : 0 ≤ pipeline_contradiction P claim evidence ∧
      pipeline_contradiction P claim evidence ≤ 1 :=
    compute_contradiction_score_bounds _ (hnli evidence claim)
  have hsb : 0 ≤ pipeline_support P claim evidence ∧
      pipeline_support P claim evidence ≤ 1 :=
    compute_support_score_bounds _ _ (hnli evidence claim)
  have hib := compute_instability_score_bounds P claim evidence
  have hspb : 0 ≤ compute_speculative_score P claim ∧
      compute_speculative_score P claim ≤ 1 :=
    score_sentence_fst_bounds P.specCfg P.caps.tokenize claim hwh hwa
  have hnb := compute_numeric_sanity_score_bounds P claim
  have hthi : 0 ≤ thi_formula P.weights (pipeline_contradiction P claim evidence)
        (pipeline_support P claim evidence) (compute_instability_score P claim evidence)
        (compute_speculative_score P claim) (compute_numeric_sanity_score P claim) ∧
      thi_formula P.weights (pipeline_contradiction P claim evidence)
        (pipeline_support P claim evidence) (compute_instability_score P claim evidence)
        (compute_speculative_score P claim) (compute_numeric_sanity_score P claim) ≤ 1 := by
    rw [hw]
    exact thi_formula_bounds w0 w1 w2 w3 w4 _ _ _ _ _ h0 h1 h2 h3 h4 (le_of_eq hsum)
      hcb hsb hib hspb hnb
  have hout : compute_thi_for_claim P claim evidence =
      { thi_score := round4 (thi_formula P.weights
          (pipeline_contradiction P claim evidence) (pipeline_support P claim evidence)
          (compute_instability_score P claim evidence) (compute_speculative_score P claim)
          (compute_numeric_sanity_score P claim))
        contradiction_score := round4 (pipeline_contradiction P claim evidence)
        support_score := round4 (pipeline_support P claim evidence)
        instability_score := round4 (compute_instability_score P claim evidence)
        speculative_score := round4 (compute_speculative_score P claim)
        numeric_score := round4 (compute_numeric_sanity_score P claim) } := rfl
  rw [hout]
  exact ⟨⟨round4_nonneg _ hcb.1, round4_le_one _ hcb.2⟩,
    ⟨round4_nonneg _ hsb.1, round4_le_one _ hsb.2⟩,
    ⟨round4_nonneg _ hib.1, round4_le_one _ hib.2⟩,
    ⟨round4_nonneg _ hspb.1, round4_le_one _ hspb.2⟩,
    ⟨round4_nonneg _ hnb.1, round4_le_one _ hnb.2⟩,
    ⟨round4_nonneg _ hthi.1, round4_le_one _ hthi.2⟩⟩

/-- Witness for C3 over the inert default-configured pipeline. -/
theorem compute_thi_for_claim_components_bounded_witness :
    0 ≤ (compute_thi_for_claim inertPipeline "x".toList "y".toList).thi_score ∧
      (compute_thi_for_claim inertPipeline "x".toList "y".toList).thi_score ≤ 1 :=
  (compute_thi_for_claim_components_bounded inertPipeline "x".toList "y".toList
    (35/100) (30/100) (15/100) (10/100) (10/100) rfl
    (by norm_num) (by norm_num) (by norm_num) (by norm_num) (by norm_num)
    (by norm_num) (by intro premise hyp ls hls; simp [inertPipeline, inertCaps] at hls)
    (by norm_num [inertPipeline]) (by norm_num [inertPipeline])).2.2.2.2.2

/-! ## Claim C4 -/

theorem percent_flag?_eq_some (threshold : ℚ) (p : Mention) (f : Flag) :
    percent_flag? threshold p = some f ↔
      ∃ v, pyFloat? (replaceAll "%".toList [] p.text) = some v ∧
        threshold < |v| ∧ f = Flag.percent_jump |v| := by
  unfold percent_flag?
  rcases hv : pyFloat? (replaceAll "%".toList [] p.text) with - | v
  · simp
  · simp only [Option.some.injEq]
    constructor
    · intro hf
      split at hf
      · exact ⟨v, rfl, by assumption, (Option.some_inj.mp hf).symm⟩
      · exact absurd hf (by simp)
    · rintro ⟨v', hv', hlt, rfl⟩
      obtain rfl : v = v' := hv'
      rw [if_pos hlt]

/-- C4 (confirmed): the percent-jump rule fires only when enabled and under a
daily-context cue; it then emits one flag carrying the value for each percent
mention whose parsed absolute value exceeds the threshold; on the scenario
sentence with threshold 50 the flags are exactly `percent_jump 500` and the
sanity score is `1/3 > 0`. -/
theorem check_percent_jumps_spec (rule : PercentJumpRule)
    (percents dates : List Mention) (text : List Char) :
    (rule.enabled = false → check_percent_jumps rule percents dates text = []) ∧
    (is_daily_context text dates = false →
      check_percent_jumps rule percents dates text = []) ∧
    (∀ f, f ∈ check_percent_jumps rule percents dates text ↔
      (rule.enabled = true ∧ is_daily_context text dates = true ∧
        ∃ p ∈ percents, ∃ v, pyFloat? (replaceAll "%".toList [] p.text) = some v ∧
          rule.threshold < |v| ∧ f = Flag.percent_jump |v|)) ∧
    (rule.enabled = true → is_daily_context text dates = true →
      (check_percent_jumps rule percents dates text).length =
        percents.countP (fun p => (percent_flag? rule.threshold p).isSome)) ∧
    ((check_sentence_claims demoRules demoThresholds (fun _ => none) 2025 demoSD).2 =
        [Flag.percent_jump 500] ∧
      (check_sentence_claims demoRules demoThresholds (fun _ => none) 2025 demoSD).1 =
        1/3 ∧
      (0 : ℚ) <
        (check_sentence_claims demoRules demoThresholds (fun _ => none) 2025 demoSD).1) := by
  have hscenario :
      check_sentence_claims demoRules demoThresholds (fun _ => none) 2025 demoSD =
        (min ((1 : ℚ) / max 1 (3 : ℕ)) 1, [Flag.percent_jump 500]) := by
    have hflags : check_percent_jumps demoRules.percent_jump demoSD.claims.percents
        demoSD.claims.dates demoSD.text = [Flag.percent_jump 500] := by
      decide
    have hcm : check_currency_mismatch demoRules.currency_mismatch_enabled
        demoSD.claims.money demoSD.text = [] := by decide
    have hua : check_unit_absurdity demoRules.unit_absurdity_enabled demoThresholds
        demoSD.claims.numbers demoSD.text = [] := by decide
    have htc : check_temporal_conflicts demoRules.future_past_conflict_enabled
        (fun _ => none) 2025 demoSD.claims.dates demoSD.text = [] := by decide
    rw [check_sentence_claims]
    rw [if_neg (by decide)]
    rw [hflags, hcm, hua, htc]
    rfl
  refine ⟨?_, ?_, ?_, ?_, ?_, ?_, ?_⟩
  · intro h
    unfold check_percent_jumps
    rw [h]
    rfl
  · intro h
    unfold check_percent_jumps
    split
    · rfl
    · rw [h]
      rfl
  · intro f
    unfold check_percent_jumps
    split
    · rename_i hcond
      simp only [List.not_mem_nil, false_iff]
      rintro ⟨hen, -, p, hp, -⟩
      rw [hen] at hcond
      simp only [Bool.not_true, Bool.false_or] at hcond
      rw [List.isEmpty_iff] at hcond
      rw [hcond] at hp
      exact List.not_mem_nil p hp
    · rename_i hcond
      have hen : rule.enabled = true := by
        by_contra hne
        rw [Bool.not_eq_true] at hne
        rw [hne] at hcond
        exact hcond rfl
      split
      · rename_i hdaily
        simp only [List.mem_filterMap, hen, hdaily, true_and]
        constructor
        · rintro ⟨p, hp, hpf⟩
          obtain ⟨v, hv, hlt, rfl⟩ := (percent_flag?_eq_some _ _ _).1 hpf
          exact ⟨p, hp, v, hv, hlt, rfl⟩
        · rintro ⟨p, hp, v, hv, hlt, rfl⟩
          exact ⟨p, hp, (percent_flag?_eq_some _ _ _).2 ⟨v, hv, hlt, rfl⟩⟩
      · rename_i hdaily
        simp only [List.not_mem_nil, false_iff]
        rintro ⟨-, hd, -⟩
        exact hdaily hd
  · intro hen hdaily
    unfold check_percent_jumps
    rw [hen]
    simp only [Bool.not_true, Bool.false_or]
    by_cases hpe : percents.isEmpty = true
    · rw [if_pos hpe]
      rw [List.isEmpty_iff.1 hpe]
      rfl
    · rw [if_neg hpe, if_pos hdaily]
      exact length_filterMap_eq_countP _ _
  · rw [hscenario]
  · rw [hscenario]
    norm_num
  · rw [hscenario]
    norm_num

/-- Witness for C4: a disabled rule emits no flags, and the scenario flags
are exactly `percent_jump 500`. -/
theorem check_percent_jumps_spec_witness :
    check_percent_jumps ⟨false, 50⟩ [⟨"500%".toList⟩] [] "in one day".toList = [] ∧
    (check_sentence_claims demoRules demoThresholds (fun _ => none) 2025 demoSD).2 =
      [Flag.percent_jump 500] :=
  ⟨(check_percent_jumps_spec ⟨false, 50⟩ [⟨"500%".toList⟩] [] "in one day".toList).1 rfl,
    (check_percent_jumps_spec ⟨false, 50⟩ [⟨"500%".toList⟩] [] "in one day".toList).2.2.2.2.1⟩

/-! ## Claim C5 -/

/-- Lemma: `replaceFirst` rewrites exactly the leftmost occurrence of the pattern. -/
theorem replaceFirst_eq (pat repl : List Char) (s : List Char) :
    replaceFirst pat repl s =
      match findSubstrIdx? pat s with
      | some i => s.take i ++ repl ++ s.drop (i + pat.length)
      | none => s := by
  induction s with
  | nil =>
    by_cases h : isPrefixList pat [] = true
    · simp [replaceFirst, findSubstrIdx?, h]
    · simp [replaceFirst, findSubstrIdx?, h]
  | cons c rest ih =>
    by_cases h : isPrefixList pat (c :: rest) = true
    · simp [replaceFirst, findSubstrIdx?, h]
    · simp only [replaceFirst, findSubstrIdx?, h, Bool.false_eq_true, if_false]
      rw [ih]
      rcases hf : findSubstrIdx? pat rest with - | i

      · simp
      · simp only [Option.map_some']
        rw [List.take_succ_cons]
        rw [show i + 1 + pat.length = (i + pat.length) + 1 from by omega]
        rw [List.drop_succ_cons]
        simp

/-- C5 (corrected): with a non-empty hedge list, when a non-auxiliary verb is
found and the sentence does not already contain "possibly", the code replaces
the **first substring occurrence** of the verb's text (which is before the
verb token only when no earlier occurrence exists); when no eligible verb is
found, or when the sentence already contains "possibly", it prepends
"Possibly ". -/
theorem insert_hedge_paraphrase_behavior (hedges : List (List Char))
    (doc : List SpacyToken) (text : List Char) (hh : hedges ≠ []) :
    (∀ v, find_main_verb doc = some v →
      isSubstrList "possibly".toList (toLowerList text) = false →
      insert_hedge_paraphrase hedges doc text =
        (match findSubstrIdx? v.text text with
          | some i => text.take i ++ "possibly ".toList ++ v.text ++
              text.drop (i + v.text.length)
          | none => text)) ∧
    (find_main_verb doc = none →
      insert_hedge_paraphrase hedges doc text = "Possibly ".toList ++ text) ∧
    (isSubstrList "possibly".toList (toLowerList text) = true →
      insert_hedge_paraphrase hedges doc text = "Possibly ".toList ++ text) := by
  have hne : hedges.isEmpty = false := by
    cases hedges
    · exact absurd rfl hh
    · rfl
  refine ⟨?_, ?_, ?_⟩
  · intro v hv hnp
    unfold insert_hedge_paraphrase
    rw [hne]
    simp only [Bool.false_eq_true, if_false]
    rw [hv, hnp]
    simp only [Bool.not_false, if_true]
    rw [replaceFirst_eq]
    rcases hf : findSubstrIdx? v.text text with - | i <;> simp [hf]
  · intro hv
    unfold insert_hedge_paraphrase
    rw [hne, hv]
    simp
  · intro hp
    unfold insert_hedge_paraphrase
    rw [hne]
    simp only [Bool.false_eq_true, if_false]
    rcases hv : find_main_verb doc with - | v
    · rfl
    · rw [hp]
      simp

/-- Counterexample to C5 as stated: in "The brand ran ads." the main verb is
"ran", but its text first occurs inside "brand", so "possibly" is inserted
mid-word rather than immediately before the verb token. -/
theorem insert_hedge_substring_counterexample :
    insert_hedge_paraphrase ["possibly".toList] brandDoc "The brand ran ads.".toList =
      "The bpossibly rand ran ads.".toList ∧
    "The bpossibly rand ran ads.".toList ≠ "The brand possibly ran ads.".toList :=
  ⟨by decide, by decide⟩

/-- Witness for C5 (amended): when the verb's text first occurs at the verb
itself the replacement coincides with insertion before the verb. -/
theorem insert_hedge_paraphrase_behavior_witness :
    insert_hedge_paraphrase ["possibly".toList] catDoc "The cat sat.".toList =
      "The cat possibly sat.".toList := by
  have h := (insert_hedge_paraphrase_behavior ["possibly".toList] catDoc
      "The cat sat.".toList (by decide)).1
      ⟨"sat".toList, "VERB".toList, "ROOT".toList⟩ (by decide) (by decide)
  rw [h]
  decide

end THI
